import Mathlib

/-!
Verification of the realtime fan-out and read-tracking subsystem of a chat
application against its specification.

The development shallowly embeds the relevant parts of the code base:

* the relational state (tables `conversations`, `conversation_participants`,
  `messages` from `supabase/migrations/20251126220948_initial_schema.sql`) as a
  record of lists of rows;
* the SQL functions and triggers (`is_conversation_participant`,
  `create_conversation_with_participants`, `update_conversation_timestamp`,
  `broadcast_conversation_participant_changes`, `broadcast_message_changes`,
  `delete_conversation_and_notify`) as state-passing functions;
* the client data-access layer (`src/db/participants.ts`, `src/db/messages.ts`)
  as functions returning `Except` for calls that can throw, mirroring the
  PostgREST `.single()` / `.maybeSingle()` semantics;
* the client component logic (`hasUnread` in `src/components/Conversation.tsx`,
  `handleVisibilityChange` in `src/hooks/useSubscribeToConversations.ts`) as
  pure functions.

Identifiers (uuids) and timestamps are modelled as naturals.  The cast
`user_id::text` used to build broadcast topics is modelled as decimal
rendering of the natural number.
-/

namespace ChatApp

/-- Row of the `conversations` table: `id`, `created_at`, `updated_at`.
`updated_at` plays the role of the spec's `last_activity_at`. -/
structure Conversation where
  id : Nat
  created_at : Nat
  updated_at : Nat
deriving DecidableEq

/-- Row of the `conversation_participants` table.  The surrogate primary-key
column `id` is omitted: no modelled operation reads it.  The schema declares
`UNIQUE(conversation_id, user_id)`. -/
structure Participant where
  conversation_id : Nat
  user_id : Nat
  last_read_at : Nat
  joined_at : Nat
deriving DecidableEq

/-- Row of the `messages` table. -/
structure Message where
  id : Nat
  conversation_id : Nat
  sender_id : Nat
  content : String
  created_at : Nat
  updated_at : Nat
  deleted_at : Option Nat
  reply_to_id : Option Nat
  edited : Bool
deriving DecidableEq

/-- The durable relational state (the Conversation Store). -/
structure DB where
  conversations : List Conversation
  participants : List Participant
  messages : List Message
deriving DecidableEq

/-- Schema invariant: `UNIQUE(conversation_id, user_id)` on
`conversation_participants`. -/
def ParticipantKeysUnique (db : DB) : Prop :=
  (db.participants.map fun p => (p.conversation_id, p.user_id)).Nodup

/-- Schema invariant: `id` is the primary key of `messages`. -/
def MessageIdsUnique (db : DB) : Prop :=
  (db.messages.map Message.id).Nodup

/-- Schema invariant: `conversation_id REFERENCES conversations(id)` on
`conversation_participants`. -/
def ParticipantConversationFk (db : DB) : Prop :=
  ∀ p ∈ db.participants, ∃ c ∈ db.conversations, c.id = p.conversation_id

/-- Decimal rendering of a natural number, modelling the `::text` cast used to
build broadcast topic names. -/
def natText (n : Nat) : String :=
  ⟨((Nat.digits 10 n).reverse.map Nat.digitChar)⟩

/-- Topic `'user:' || user_id::text` of a user's private broadcast channel. -/
def userTopic (u : Nat) : String :=
  "user:" ++ natText u

/-! ### Trigger-level row changes and Delivery Events

A PostgreSQL row-level trigger invocation carries an operation `TG_OP` together
with the `NEW` and `OLD` row images: `INSERT` has only `NEW`, `DELETE` has only
`OLD`, `UPDATE` has both. -/

/-- The `TG_OP` of a row-level trigger invocation. -/
inductive TgOp
  | ins
  | upd
  | del
deriving DecidableEq

/-- The text PostgreSQL reports in `TG_OP`. -/
def TgOp.name : TgOp → String
  | .ins => "INSERT"
  | .upd => "UPDATE"
  | .del => "DELETE"

/-- A row-level change of a table of rows of type `α`, as seen by a
`FOR EACH ROW` trigger. -/
inductive RowChange (α : Type)
  | ins (new : α)
  | upd (old new : α)
  | del (old : α)

/-- The `NEW` row image (`NULL` for `DELETE`). -/
def RowChange.newRow {α : Type} : RowChange α → Option α
  | .ins n => some n
  | .upd _ n => some n
  | .del _ => none

/-- The `OLD` row image (`NULL` for `INSERT`). -/
def RowChange.oldRow {α : Type} : RowChange α → Option α
  | .ins _ => none
  | .upd o _ => some o
  | .del o => some o

/-- The `TG_OP` of a row change. -/
def RowChange.op {α : Type} : RowChange α → TgOp
  | .ins _ => .ins
  | .upd _ _ => .upd
  | .del _ => .del

/-- Payload row carried in a Delivery Event (`NEW` / `OLD` record). -/
inductive RowData
  | participantRow (p : Participant)
  | messageRow (m : Message)
deriving DecidableEq

/-- A Delivery Event: one `realtime.broadcast_changes(topic, event, op, table,
schema, NEW, OLD, level)` emission, addressed to exactly one topic. -/
structure DeliveryEvent where
  topic : String
  event_name : String
  operation : String
  table_name : String
  record : Option RowData
  old_record : Option RowData
deriving DecidableEq

/-- SQL `COALESCE(NEW.user_id, OLD.user_id)` of a `conversation_participants` row
change: `NEW` is taken for `INSERT`/`UPDATE`, `OLD` for `DELETE`. -/
def participantChangeUser : RowChange Participant → Nat
  | .ins p => p.user_id
  | .upd _ p => p.user_id
  | .del p => p.user_id

/-- SQL `COALESCE(NEW.conversation_id, OLD.conversation_id)` of a `messages` row
change: `NEW` is taken for `INSERT`/`UPDATE`, `OLD` for `DELETE`. -/
def messageChangeConversation : RowChange Message → Nat
  | .ins m => m.conversation_id
  | .upd _ m => m.conversation_id
  | .del m => m.conversation_id

/-- SQL `broadcast_conversation_participant_changes()` trigger function: on any
row change of `conversation_participants` it performs a single
`realtime.broadcast_changes` to topic
`'user:' || COALESCE(NEW.user_id, OLD.user_id)::text`. -/
def broadcast_conversation_participant_changes
    (ch : RowChange Participant) : List DeliveryEvent :=
  [{ topic := userTopic (participantChangeUser ch)
     event_name := ch.op.name
     operation := ch.op.name
     table_name := "conversation_participants"
     record := ch.newRow.map RowData.participantRow
     old_record := ch.oldRow.map RowData.participantRow }]

/-- SQL `broadcast_message_changes()` trigger function: on any row change of
`messages` it loops over
`SELECT user_id FROM conversation_participants WHERE conversation_id =
COALESCE(NEW.conversation_id, OLD.conversation_id)` and performs one
`realtime.broadcast_changes` to `'user:' || user_id::text` per row found. -/
def broadcast_message_changes (db : DB) (ch : RowChange Message) :
    List DeliveryEvent :=
  (db.participants.filter fun p =>
      decide (p.conversation_id = messageChangeConversation ch)).map fun p =>
    { topic := userTopic p.user_id
      event_name := ch.op.name
      operation := ch.op.name
      table_name := "messages"
      record := ch.newRow.map RowData.messageRow
      old_record := ch.oldRow.map RowData.messageRow }

/-- The spec's `participantsOf(conversationId)`: the user ids of the
`conversation_participants` rows of a conversation. -/
def participantsOf (db : DB) (cid : Nat) : List Nat :=
  (db.participants.filter fun p => decide (p.conversation_id = cid)).map
    Participant.user_id

/-- The `conversation_participants` rows of one conversation (the join used by
the client when it fetches a conversation together with its participants). -/
def participantRowsOf (db : DB) (cid : Nat) : List Participant :=
  db.participants.filter fun p => decide (p.conversation_id = cid)

/-! ### Membership Resolver -/

/-- SQL `is_conversation_participant(conversation_id, user_id)`:
`SELECT EXISTS (SELECT 1 FROM conversation_participants WHERE ...)`.
A total boolean query: it cannot raise. -/
def is_conversation_participant (db : DB) (cid uid : Nat) : Bool :=
  db.participants.any fun p => decide (p.conversation_id = cid ∧ p.user_id = uid)

/-- Model of `participantsDb.isUserInConversation` (src/db/participants.ts): selects the
matching rows and applies `.maybeSingle()`, which yields `false` on zero rows,
`true` on one row, and an error on several rows; `if (error) throw error`. -/
def isUserInConversation (db : DB) (cid uid : Nat) : Except String Bool :=
  match db.participants.filter fun p =>
      decide (p.conversation_id = cid ∧ p.user_id = uid) with
  | [] => .ok false
  | [_] => .ok true
  | _ => .error ("JSON object requested, multiple (or no) rows returned")

/-! ### Read-State Tracker -/

/-- The `UPDATE` statement issued by `participantsDb.updateLastRead`:
`UPDATE conversation_participants SET last_read_at = now WHERE conversation_id
= cid AND user_id = uid`.  Rows that do not match are untouched; if nothing
matches the statement still succeeds, affecting zero rows. -/
def applyLastRead (db : DB) (cid uid now : Nat) : DB :=
  { db with participants := db.participants.map fun p =>
      if p.conversation_id = cid ∧ p.user_id = uid then
        { p with last_read_at := now } else p }

/-- Model of `participantsDb.updateLastRead` (src/db/participants.ts): issues the
`UPDATE` above, then `.select().single()`.  The update itself is applied to
whatever rows match (possibly none); `.single()` then throws unless exactly
one row was returned, so the first component is the state after the update and
the second is the returned row or the thrown error. -/
def updateLastRead (db : DB) (cid uid now : Nat) : DB × Except String Participant :=
  match (applyLastRead db cid uid now).participants.filter
      (fun p => decide (p.conversation_id = cid ∧ p.user_id = uid)) with
  | [p] => (applyLastRead db cid uid now, .ok p)
  | _ => (applyLastRead db cid uid now,
          .error ("JSON object requested, multiple (or no) rows returned"))

/-! ### Conversation creation -/

/-- The `FOREACH participant_id IN ARRAY participant_ids LOOP INSERT ... END
LOOP` of `create_conversation_with_participants`: each insert into
`conversation_participants` is checked against the schema's
`UNIQUE(conversation_id, user_id)` constraint; a violation raises and aborts
the whole function. -/
def insertParticipantRows (rows : List Participant) (cid : Nat) (ids : List Nat)
    (now : Nat) : Except String (List Participant) :=
  match ids with
  | [] => .ok rows
  | u :: rest =>
    if rows.any (fun p => decide (p.conversation_id = cid ∧ p.user_id = u)) then
      .error ("duplicate key value violates unique constraint")
    else
      insertParticipantRows
        (rows ++ [{ conversation_id := cid, user_id := u,
                    last_read_at := now, joined_at := now }]) cid rest now

/-- SQL `create_conversation_with_participants(participant_ids)`.  `participant_ids`
is `Option` because the SQL argument may be `NULL`; `auth_uid` is `auth.uid()`;
`newId` stands for the freshly generated conversation uuid and `now` for
`NOW()`.  A raised exception aborts the transaction, so an `.error` result
leaves no state change (no `DB` is produced). -/
def create_conversation_with_participants (db : DB)
    (participant_ids : Option (List Nat)) (auth_uid newId now : Nat) :
    Except String (DB × Nat) :=
  match participant_ids with
  | none => .error ("participant_ids cannot be null or empty")
  | some ids =>
    if ids.length = 0 then .error ("participant_ids cannot be null or empty")
    else if ids.length < 2 then .error ("At least 2 participants are required")
    else if ¬ auth_uid ∈ ids then
      .error ("You must be a participant in the conversation you are creating")
    else
      match insertParticipantRows db.participants newId ids now with
      | .error e => .error e
      | .ok parts =>
        .ok ({ db with
                 conversations := db.conversations ++ [⟨newId, now, now⟩],
                 participants := parts }, newId)

/-! ### Message insertion and the activity-timestamp trigger -/

/-- SQL `update_conversation_timestamp()` trigger function:
`UPDATE conversations SET updated_at = NOW() WHERE id = NEW.conversation_id`. -/
def update_conversation_timestamp (convs : List Conversation) (newMsg : Message)
    (now : Nat) : List Conversation :=
  convs.map fun c => if c.id = newMsg.conversation_id then
    { c with updated_at := now } else c

/-- Inserting a message (`messagesDb.create`) together with its two `AFTER
INSERT FOR EACH ROW` triggers: `broadcast_message_changes` (fan-out, which
reads the participant set as it stands at the mutation) and
`update_conversation_on_message_insert` (activity timestamp). -/
def insertMessage (db : DB) (m : Message) (now : Nat) : DB × List DeliveryEvent :=
  let db1 := { db with messages := db.messages ++ [m] }
  let events := broadcast_message_changes db1 (RowChange.ins m)
  let db2 := { db1 with
                 conversations := update_conversation_timestamp db1.conversations m now }
  (db2, events)

/-! ### Conversation deletion -/

/-- One step of the execution trace of `delete_conversation_and_notify`,
together with the Delivery Events the step's row-level triggers emitted. -/
inductive TraceAction
  | participantRowDeleted (p : Participant) (events : List DeliveryEvent)
  | messageRowDeleted (m : Message) (events : List DeliveryEvent)
  | conversationRowDeleted (c : Conversation)

/-- SQL `delete_conversation_and_notify(conversation_id)`
(migration 20251226234120): raises unless `auth.uid()` has a participant row in
the conversation; then `DELETE FROM conversation_participants WHERE
conversation_id = ...` (the `AFTER DELETE FOR EACH ROW` trigger fires
`broadcast_conversation_participant_changes` once per removed row), then
`DELETE FROM conversations WHERE id = ...`, whose `ON DELETE CASCADE` removes
the conversation's messages row by row (each cascaded delete fires
`broadcast_message_changes`, which at that point finds no participants left).
The second component records the actions in execution order.  A raised
exception aborts the transaction, so an `.error` result leaves no state
change. -/
def delete_conversation_and_notify (db : DB) (conversation_id auth_uid : Nat) :
    Except String (DB × List TraceAction) :=
  if ¬ db.participants.any (fun p =>
      decide (p.conversation_id = conversation_id ∧ p.user_id = auth_uid)) then
    .error ("You must be a participant to delete this conversation")
  else
    let removed := db.participants.filter fun p =>
      decide (p.conversation_id = conversation_id)
    let db1 := { db with
                   participants := db.participants.filter fun p =>
                     decide (¬ p.conversation_id = conversation_id) }
    let participantActions := removed.map fun p =>
      TraceAction.participantRowDeleted p
        (broadcast_conversation_participant_changes (RowChange.del p))
    let cascaded := db1.messages.filter fun m =>
      decide (m.conversation_id = conversation_id)
    let messageActions := cascaded.map fun m =>
      TraceAction.messageRowDeleted m (broadcast_message_changes db1 (RowChange.del m))
    let conversationActions :=
      (db1.conversations.filter fun c => decide (c.id = conversation_id)).map
        TraceAction.conversationRowDeleted
    let db2 := { db1 with
                   messages := db1.messages.filter fun m =>
                     decide (¬ m.conversation_id = conversation_id),
                   conversations := db1.conversations.filter fun c =>
                     decide (¬ c.id = conversation_id) }
    .ok (db2, participantActions ++ (messageActions ++ conversationActions))

/-! ### Message reads (src/db/messages.ts) -/

/-- Insert into a list sorted by `le` (auxiliary for `ORDER BY`). -/
def insertSorted {α : Type} (le : α → α → Bool) (x : α) : List α → List α
  | [] => [x]
  | y :: ys => if le x y then x :: y :: ys else y :: insertSorted le x ys

/-- Insertion sort, modelling SQL `ORDER BY`. -/
def sortRows {α : Type} (le : α → α → Bool) : List α → List α
  | [] => []
  | x :: xs => insertSorted le x (sortRows le xs)

/-- Case-insensitive substring test on character lists (auxiliary for SQL
`ILIKE '%term%'`). -/
def containsSub (pat : List Char) : List Char → Bool
  | [] => pat.isEmpty
  | c :: t => pat.isPrefixOf (c :: t) || containsSub pat t

/-- SQL `content ILIKE '%term%'`. -/
def ilikeContains (content term : String) : Bool :=
  containsSub (term.data.map Char.toLower) (content.data.map Char.toLower)

/-- Model of `messagesDb.getByConversation`: matching conversation, `deleted_at IS
NULL`, ordered by `created_at` ascending. -/
def getByConversation (db : DB) (cid : Nat) : List Message :=
  sortRows (fun a b => decide (a.created_at ≤ b.created_at))
    (db.messages.filter fun m =>
      decide (m.conversation_id = cid ∧ m.deleted_at = none))

/-- Model of `messagesDb.getRecentByConversation`: matching conversation, `deleted_at IS
NULL`, ordered by `created_at` descending, first `limit` rows. -/
def getRecentByConversation (db : DB) (cid limit : Nat) : List Message :=
  (sortRows (fun a b => decide (b.created_at ≤ a.created_at))
    (db.messages.filter fun m =>
      decide (m.conversation_id = cid ∧ m.deleted_at = none))).take limit

/-- Model of `messagesDb.getByConversationPaginated`: additionally `created_at <
beforeTimestamp`. -/
def getByConversationPaginated (db : DB) (cid beforeTimestamp limit : Nat) :
    List Message :=
  (sortRows (fun a b => decide (b.created_at ≤ a.created_at))
    (db.messages.filter fun m =>
      decide (m.conversation_id = cid ∧ m.deleted_at = none ∧
        m.created_at < beforeTimestamp))).take limit

/-- Model of `messagesDb.getById`: `.eq('id', messageId).single()` — note: no
`deleted_at` filter.  `.single()` throws unless exactly one row matches. -/
def getById (db : DB) (messageId : Nat) : Except String Message :=
  match db.messages.filter fun m => decide (m.id = messageId) with
  | [m] => .ok m
  | _ => .error ("JSON object requested, multiple (or no) rows returned")

/-- Model of `messagesDb.searchInConversation`: matching conversation, `deleted_at IS
NULL`, `content ILIKE '%term%'`, newest first, at most 50 rows. -/
def searchInConversation (db : DB) (cid : Nat) (searchTerm : String) :
    List Message :=
  (sortRows (fun a b => decide (b.created_at ≤ a.created_at))
    (db.messages.filter fun m =>
      decide (m.conversation_id = cid ∧ m.deleted_at = none ∧
        ilikeContains m.content searchTerm = true))).take 50

/-- Model of `messagesDb.getBySender`: messages of one sender, `deleted_at IS NULL`,
newest first. -/
def getBySender (db : DB) (senderId : Nat) : List Message :=
  sortRows (fun a b => decide (b.created_at ≤ a.created_at))
    (db.messages.filter fun m =>
      decide (m.sender_id = senderId ∧ m.deleted_at = none))

/-- Model of `messagesDb.softDelete`: `UPDATE messages SET deleted_at = now WHERE id =
messageId`, then `.select().single()`; the row is updated in place, never
removed. -/
def applySoftDelete (db : DB) (messageId now : Nat) : DB :=
  { db with messages := db.messages.map fun m =>
      if m.id = messageId then { m with deleted_at := some now } else m }

/-- The `.select().single()` step of `messagesDb.softDelete`. -/
def softDelete (db : DB) (messageId now : Nat) : DB × Except String Message :=
  match (applySoftDelete db messageId now).messages.filter
      (fun m => decide (m.id = messageId)) with
  | [m] => (applySoftDelete db messageId now, .ok m)
  | _ => (applySoftDelete db messageId now,
          .error ("JSON object requested, multiple (or no) rows returned"))

/-- Model of `messagesDb.getUnreadCount`: fetches the participant row with
`.single()` but ignores the error object (only `data` is destructured), so a
missing row yields `0`; otherwise counts the conversation's messages with a
different sender, `deleted_at IS NULL`, and `created_at` strictly greater than
the participant's `last_read_at`. -/
def getUnreadCount (db : DB) (cid uid : Nat) : Nat :=
  match db.participants.filter fun p =>
      decide (p.conversation_id = cid ∧ p.user_id = uid) with
  | [p] =>
    (db.messages.filter fun m =>
      decide (m.conversation_id = cid ∧ ¬ m.sender_id = uid ∧
        m.deleted_at = none ∧ p.last_read_at < m.created_at)).length
  | _ => 0

/-! ### Client-side derived state and subscription liveness -/

/-- Lookup of a conversation row by id, `conversationsDb`-style (the
`.eq('id', conversationId)` fetch used by the client). -/
def findConversation (db : DB) (cid : Nat) : Option Conversation :=
  db.conversations.find? fun c => decide (c.id = cid)

/-- Model of `hasUnread` from `src/components/Conversation.tsx`: find the current
user's row among the conversation's participants; without such a row the
conversation is not unread, otherwise compare `conversation.updated_at >
participant.last_read_at`. -/
def hasUnread (conv : Conversation) (participants : List Participant)
    (profileId : Option Nat) : Bool :=
  match participants.find? fun p => decide (profileId = some p.user_id) with
  | none => false
  | some p => decide (conv.updated_at > p.last_read_at)

/-- States of a Supabase realtime channel. -/
inductive ChannelState
  | closed
  | errored
  | joined
  | joining
  | leaving
deriving DecidableEq

/-- JavaScript truthiness of the `userId : string | null | undefined` value
captured by the visibility handler: `null`, `undefined` and `''` are falsy. -/
def userIdFalsy : Option String → Bool
  | none => true
  | some s => s.isEmpty

/-- Model of `handleVisibilityChange` from `src/hooks/useSubscribeToConversations.ts`:
returns whether `channel.subscribe()` is invoked.  The handler acts only when
the page became visible, returns early when `userId` or `channel` is falsy, and
resubscribes exactly when the channel state is `'closed'` or `'errored'`. -/
def handleVisibilityChange (visibilityState : String) (userId : Option String)
    (channel : Option ChannelState) : Bool :=
  if visibilityState = "visible" then
    if userIdFalsy userId || channel.isNone then false
    else
      match channel with
      | some st => decide (st = ChannelState.closed ∨ st = ChannelState.errored)
      | none => false
  else false

/-! ### Concrete example data used by witnesses and counterexamples -/

/-- Example conversation row. -/
def exConversation : Conversation := ⟨1, 0, 0⟩

/-- Example participant row: user 10 in conversation 1. -/
def exParticipantA : Participant := ⟨1, 10, 0, 0⟩

/-- Example participant row: user 11 in conversation 1. -/
def exParticipantB : Participant := ⟨1, 11, 0, 0⟩

/-- Example live message from user 10 in conversation 1. -/
def exMessage : Message := ⟨5, 1, 10, "hi", 1, 1, none, none, false⟩

/-- Example soft-deleted message (its `deleted_at` marker is set). -/
def exDeletedMessage : Message := ⟨6, 1, 10, "gone", 2, 2, some 3, none, false⟩

/-- Example database: one conversation with two participants and two messages,
one of which is soft-deleted. -/
def exDb : DB :=
  ⟨[exConversation], [exParticipantA, exParticipantB], [exMessage, exDeletedMessage]⟩

/-- The empty database. -/
def emptyDb : DB := ⟨[], [], []⟩

/-- The Delivery Event emitted when user 10's example participant row is
deleted. -/
def exParticipantDeleteEvent : DeliveryEvent :=
  { topic := userTopic 10, event_name := "DELETE", operation := "DELETE",
    table_name := "conversation_participants", record := none,
    old_record := some (RowData.participantRow exParticipantA) }

/-- The Delivery Event addressed to user 11 when the example message is
inserted. -/
def exMessageInsertEventB : DeliveryEvent :=
  { topic := userTopic 11, event_name := "INSERT", operation := "INSERT",
    table_name := "messages", record := some (RowData.messageRow exMessage),
    old_record := none }

/-- The execution trace of `delete_conversation_and_notify exDb 1 10`: both
participant rows are deleted first (each firing its own fan-out event), then
the cascaded message deletes (which find no participants left, hence no
events), then the conversation row itself. -/
def exDeleteTrace : List TraceAction :=
  [TraceAction.participantRowDeleted exParticipantA
     (broadcast_conversation_participant_changes (RowChange.del exParticipantA)),
   TraceAction.participantRowDeleted exParticipantB
     (broadcast_conversation_participant_changes (RowChange.del exParticipantB)),
   TraceAction.messageRowDeleted exMessage [],
   TraceAction.messageRowDeleted exDeletedMessage [],
   TraceAction.conversationRowDeleted exConversation]

/-! ### Helper lemmas about the embedded operations -/

lemma digitChar_inj_of_lt {a b : Nat} (ha : a < 10) (hb : b < 10)
    (h : Nat.digitChar a = Nat.digitChar b) : a = b := by
  have key : ∀ x : Fin 10, ∀ y : Fin 10,
      Nat.digitChar x.val = Nat.digitChar y.val → x = y := by decide
  have := key ⟨a, ha⟩ ⟨b, hb⟩ h
  exact congrArg Fin.val this

lemma map_digitChar_inj : ∀ l1 l2 : List Nat, (∀ x ∈ l1, x < 10) → (∀ x ∈ l2, x < 10) →
    l1.map Nat.digitChar = l2.map Nat.digitChar → l1 = l2 := by
  intro l1
  induction l1 with
  | nil =>
    intro l2 _ _ h
    cases l2 with
    | nil => rfl
    | cons b t2 => simp at h
  | cons a t ih =>
    intro l2 h1 h2 h
    cases l2 with
    | nil => simp at h
    | cons b t2 =>
      simp only [List.map_cons, List.cons.injEq] at h
      have hab : a = b :=
        digitChar_inj_of_lt (h1 a (by simp)) (h2 b (by simp)) h.1
      have ht : t = t2 :=
        ih t2 (fun x hx => h1 x (by simp [hx])) (fun x hx => h2 x (by simp [hx])) h.2
      rw [hab, ht]

lemma natText_inj {m n : Nat} (h : natText m = natText n) : m = n := by
  have hdata : ((Nat.digits 10 m).reverse.map Nat.digitChar) =
      ((Nat.digits 10 n).reverse.map Nat.digitChar) := congrArg String.data h
  have hrev : (Nat.digits 10 m).reverse = (Nat.digits 10 n).reverse :=
    map_digitChar_inj _ _
      (fun x hx => Nat.digits_lt_base (by norm_num) (List.mem_reverse.mp hx))
      (fun x hx => Nat.digits_lt_base (by norm_num) (List.mem_reverse.mp hx)) hdata
  have hdig : Nat.digits 10 m = Nat.digits 10 n := List.reverse_injective hrev
  calc m = Nat.ofDigits 10 (Nat.digits 10 m) := (Nat.ofDigits_digits 10 m).symm
    _ = Nat.ofDigits 10 (Nat.digits 10 n) := by rw [hdig]
    _ = n := Nat.ofDigits_digits 10 n

lemma userTopic_inj {u v : Nat} (h : userTopic u = userTopic v) : u = v := by
  have hdata : ("user:" ++ natText u).data = ("user:" ++ natText v).data :=
    congrArg String.data h
  simp only [String.data_append] at hdata
  exact natText_inj (String.ext (List.append_cancel_left hdata))

/-! ### Generic list helpers used throughout the development -/

lemma find?_eq_some_of_unique {α : Type} (l : List α) (pred : α → Bool) (a : α)
    (ha : a ∈ l) (hpa : pred a = true) (huniq : ∀ b ∈ l, pred b = true → b = a) :
    l.find? pred = some a := by
  induction l with
  | nil => cases ha
  | cons x t ih =>
    by_cases hx : pred x = true
    · have hxe : x = a := huniq x (by simp) hx
      subst hxe
      simp [List.find?, hx]
    · have hxa : x ≠ a := fun he => hx (he ▸ hpa)
      have ha' : a ∈ t := by
        rcases List.mem_cons.mp ha with h | h
        · exact absurd h.symm hxa
        · exact h
      have := ih ha' (fun b hb hpb => huniq b (List.mem_cons_of_mem x hb) hpb)
      simp [List.find?, hx, this]

lemma filter_eq_singleton_of_unique {α : Type} (l : List α) (pred : α → Bool) (a : α)
    (hnd : l.Nodup) (ha : a ∈ l) (hpa : pred a = true)
    (huniq : ∀ b ∈ l, pred b = true → b = a) :
    l.filter pred = [a] := by
  induction l with
  | nil => cases ha
  | cons x t ih =>
    rcases List.nodup_cons.mp hnd with ⟨hxnot, hndt⟩
    by_cases hx : pred x = true
    · have hxa : x = a := huniq x (by simp) hx
      subst hxa
      have : t.filter pred = [] := by
        apply List.filter_eq_nil_iff.mpr
        intro b hb hpb
        exact hxnot ((huniq b (List.mem_cons_of_mem x hb) hpb) ▸ hb)
      simp [List.filter_cons, hx, this]
    · have hxa : x ≠ a := fun he => hx (he ▸ hpa)
      have ha' : a ∈ t := by
        rcases List.mem_cons.mp ha with h | h
        · exact absurd h.symm hxa
        · exact h
      have := ih hndt ha' (fun b hb hpb => huniq b (List.mem_cons_of_mem x hb) hpb)
      simp [List.filter_cons, hx, this]

lemma countP_eq_one_of_nodup_map {α β : Type} [DecidableEq β] (l : List α) (f : α → β)
    (b : β) (hnd : (l.map f).Nodup) (hb : b ∈ l.map f) :
    l.countP (fun a => decide (f a = b)) = 1 := by
  induction l with
  | nil => cases hb
  | cons x t ih =>
    simp only [List.map_cons, List.nodup_cons] at hnd
    by_cases hx : f x = b
    · have : t.countP (fun a => decide (f a = b)) = 0 := by
        apply List.countP_eq_zero.mpr
        intro a ha
        simp only [decide_eq_true_eq]
        intro hfa
        have : b ∈ t.map f := hfa ▸ List.mem_map_of_mem f ha
        exact hnd.1 (hx ▸ this)
      simp [List.countP_cons, hx, this]
    · have hb' : b ∈ t.map f := by
        rcases List.mem_cons.mp hb with h | h
        · exact absurd h.symm hx
        · exact h
      have := ih hnd.2 hb'
      simp [List.countP_cons, hx, this]

lemma mem_insertSorted {α : Type} (le : α → α → Bool) (x a : α) (l : List α) :
    a ∈ insertSorted le x l ↔ a = x ∨ a ∈ l := by
  induction l with
  | nil => simp [insertSorted]
  | cons y ys ih =>
    by_cases h : le x y = true
    · simp [insertSorted, h]
    · simp only [insertSorted, h]
      simp only [Bool.false_eq_true, if_false, List.mem_cons, ih]
      tauto

lemma mem_sortRows {α : Type} (le : α → α → Bool) (a : α) (l : List α) :
    a ∈ sortRows le l ↔ a ∈ l := by
  induction l with
  | nil => simp [sortRows]
  | cons x xs ih => simp [sortRows, mem_insertSorted, ih]

lemma participant_row_eq {db : DB} (hkeys : ParticipantKeysUnique db)
    {p q : Participant} (hp : p ∈ db.participants) (hq : q ∈ db.participants)
    (hc : p.conversation_id = q.conversation_id) (hu : p.user_id = q.user_id) :
    p = q :=
  List.inj_on_of_nodup_map hkeys hp hq (by rw [hc, hu])

lemma participants_nodup {db : DB} (hkeys : ParticipantKeysUnique db) :
    db.participants.Nodup :=
  List.Nodup.of_map _ hkeys

lemma participant_filter_singleton {db : DB} (hkeys : ParticipantKeysUnique db)
    {p : Participant} {cid uid : Nat} (hp : p ∈ db.participants)
    (hc : p.conversation_id = cid) (hu : p.user_id = uid) :
    db.participants.filter
      (fun q => decide (q.conversation_id = cid ∧ q.user_id = uid)) = [p] := by
  apply filter_eq_singleton_of_unique _ _ _ (participants_nodup hkeys) hp
  · simp [hc, hu]
  · intro q hq hqpred
    simp only [decide_eq_true_eq] at hqpred
    exact participant_row_eq hkeys hq hp (by rw [hqpred.1, hc]) (by rw [hqpred.2, hu])

lemma message_filter_singleton {db : DB} (hids : MessageIdsUnique db)
    {m : Message} {mid : Nat} (hm : m ∈ db.messages) (hid : m.id = mid) :
    db.messages.filter (fun x => decide (x.id = mid)) = [m] := by
  apply filter_eq_singleton_of_unique _ _ _ (List.Nodup.of_map _ hids) hm
  · simp [hid]
  · intro q hq hqpred
    simp only [decide_eq_true_eq] at hqpred
    exact List.inj_on_of_nodup_map hids hq hm (by rw [hqpred, hid])

lemma rowsOf_pairs_nodup {db : DB} (hkeys : ParticipantKeysUnique db) (cid : Nat) :
    ((participantRowsOf db cid).map fun p => (p.conversation_id, p.user_id)).Nodup :=
  List.Nodup.sublist (List.Sublist.map _ (List.filter_sublist _)) hkeys

lemma mem_rowsOf {db : DB} {p : Participant} {cid : Nat} :
    p ∈ participantRowsOf db cid ↔ p ∈ db.participants ∧ p.conversation_id = cid := by
  simp [participantRowsOf, List.mem_filter]

lemma participantsOf_nodup {db : DB} (hkeys : ParticipantKeysUnique db) (cid : Nat) :
    (participantsOf db cid).Nodup := by
  apply List.Nodup.map_on
  · intro x hx y hy hxy
    have hx' := mem_rowsOf.mp hx
    have hy' := mem_rowsOf.mp hy
    exact participant_row_eq hkeys hx'.1 hy'.1 (by rw [hx'.2, hy'.2]) hxy
  · exact List.Nodup.sublist (List.filter_sublist _) (participants_nodup hkeys)

lemma mem_participantsOf {db : DB} {u cid : Nat} :
    u ∈ participantsOf db cid ↔
      ∃ p ∈ db.participants, p.conversation_id = cid ∧ p.user_id = u := by
  simp only [participantsOf, List.mem_map, List.mem_filter, decide_eq_true_eq]
  constructor
  · rintro ⟨p, ⟨hp, hc⟩, hu⟩
    exact ⟨p, hp, hc, hu⟩
  · rintro ⟨p, hp, hc, hu⟩
    exact ⟨p, ⟨hp, hc⟩, hu⟩

lemma updateLastRead_fst (db : DB) (cid uid now : Nat) :
    (updateLastRead db cid uid now).1 = applyLastRead db cid uid now := by
  unfold updateLastRead
  split <;> rfl

lemma softDelete_fst (db : DB) (messageId now : Nat) :
    (softDelete db messageId now).1 = applySoftDelete db messageId now := by
  unfold softDelete
  split <;> rfl

lemma applyLastRead_keys (db : DB) (cid uid now : Nat) :
    ((applyLastRead db cid uid now).participants.map fun p =>
        (p.conversation_id, p.user_id)) =
      db.participants.map fun p => (p.conversation_id, p.user_id) := by
  show ((db.participants.map _).map _) = _
  rw [List.map_map]
  apply List.map_congr_left
  intro p _
  by_cases h : p.conversation_id = cid ∧ p.user_id = uid <;>
    simp [Function.comp, h]

lemma updateLastRead_hit {db : DB} {p : Participant} {cid uid : Nat} (t : Nat)
    (hkeys : ParticipantKeysUnique db) (hp : p ∈ db.participants)
    (hc : p.conversation_id = cid) (hu : p.user_id = uid) :
    updateLastRead db cid uid t =
      (applyLastRead db cid uid t, .ok { p with last_read_at := t }) := by
  have hfun : ((fun q : Participant =>
      decide (q.conversation_id = cid ∧ q.user_id = uid)) ∘
        (fun q : Participant =>
          if q.conversation_id = cid ∧ q.user_id = uid then
            { q with last_read_at := t } else q)) =
      fun q : Participant => decide (q.conversation_id = cid ∧ q.user_id = uid) := by
    funext q
    by_cases h : q.conversation_id = cid ∧ q.user_id = uid <;>
      simp [Function.comp, h]
  have hfilter : (applyLastRead db cid uid t).participants.filter
      (fun q => decide (q.conversation_id = cid ∧ q.user_id = uid)) =
      [{ p with last_read_at := t }] := by
    show (db.participants.map _).filter _ = _
    rw [List.filter_map, hfun, participant_filter_singleton hkeys hp hc hu]
    simp [hc, hu]
  unfold updateLastRead
  rw [hfilter]

lemma updateLastRead_miss {db : DB} {cid uid : Nat} (t : Nat)
    (hmiss : ∀ q ∈ db.participants, ¬(q.conversation_id = cid ∧ q.user_id = uid)) :
    updateLastRead db cid uid t =
      (db, .error ("JSON object requested, multiple (or no) rows returned")) := by
  have hid : (applyLastRead db cid uid t).participants = db.participants := by
    show db.participants.map _ = _
    have : ∀ q ∈ db.participants,
        (if q.conversation_id = cid ∧ q.user_id = uid then
          { q with last_read_at := t } else q) = q := by
      intro q hq
      rw [if_neg (hmiss q hq)]
    rw [List.map_congr_left this]
    exact List.map_id' db.participants
  have hfilter : (applyLastRead db cid uid t).participants.filter
      (fun q => decide (q.conversation_id = cid ∧ q.user_id = uid)) = [] := by
    rw [hid]
    apply List.filter_eq_nil_iff.mpr
    intro q hq
    simpa using hmiss q hq
  have hdb : applyLastRead db cid uid t = db := by
    unfold applyLastRead at hid ⊢
    rw [show (db.participants.map fun p =>
        if p.conversation_id = cid ∧ p.user_id = uid then
          { p with last_read_at := t } else p) = db.participants from hid]
  unfold updateLastRead
  rw [hfilter, hdb]

lemma insertParticipantRows_ok (rows : List Participant) (cid : Nat)
    (ids : List Nat) (now : Nat) (hnodup : ids.Nodup)
    (hfresh : ∀ p ∈ rows, p.conversation_id = cid → p.user_id ∉ ids) :
    insertParticipantRows rows cid ids now =
      .ok (rows ++ ids.map fun u => ⟨cid, u, now, now⟩) := by
  induction ids generalizing rows with
  | nil => simp [insertParticipantRows]
  | cons u rest ih =>
    have hany : rows.any
        (fun p => decide (p.conversation_id = cid ∧ p.user_id = u)) = false := by
      apply List.any_eq_false.mpr
      intro p hp
      simp only [decide_eq_true_eq, not_and]
      intro hpc hpu
      exact hfresh p hp hpc (hpu ▸ List.mem_cons_self u rest)
    rcases List.nodup_cons.mp hnodup with ⟨hunotin, hnodup'⟩
    have hfresh' : ∀ p ∈ rows ++ [(⟨cid, u, now, now⟩ : Participant)],
        p.conversation_id = cid → p.user_id ∉ rest := by
      intro p hp hpc
      rcases List.mem_append.mp hp with h | h
      · exact fun hmem => hfresh p h hpc (List.mem_cons_of_mem u hmem)
      · have : p = ⟨cid, u, now, now⟩ := by simpa using h
        subst this
        exact hunotin
    unfold insertParticipantRows
    rw [hany]
    simp only [Bool.false_eq_true, if_false]
    rw [ih _ hnodup' hfresh']
    simp [List.append_assoc]

lemma find_user_row {db : DB} {cid uid : Nat} {p : Participant}
    (hkeys : ParticipantKeysUnique db) (hp : p ∈ db.participants)
    (hpc : p.conversation_id = cid) (hpu : p.user_id = uid) :
    (participantRowsOf db cid).find?
      (fun q => decide ((some uid : Option Nat) = some q.user_id)) = some p := by
  refine find?_eq_some_of_unique _ _ p (mem_rowsOf.mpr ⟨hp, hpc⟩) (by simp [hpu]) ?_
  intro b hb hbpred
  simp only [decide_eq_true_eq, Option.some.injEq] at hbpred
  have hb' := mem_rowsOf.mp hb
  exact participant_row_eq hkeys hb'.1 hp (by rw [hb'.2, hpc])
    (by rw [← hbpred, hpu])

lemma lastRead_map_rowsOf (db : DB) (cid uid t cid' : Nat) :
    participantRowsOf (applyLastRead db cid uid t) cid' =
      (participantRowsOf db cid').map fun q =>
        if q.conversation_id = cid ∧ q.user_id = uid then
          { q with last_read_at := t } else q := by
  show (db.participants.map _).filter _ = _
  rw [List.filter_map]
  congr 1
  apply List.filter_congr
  intro q _
  by_cases hq : q.conversation_id = cid ∧ q.user_id = uid <;>
    simp [Function.comp, hq]

/-! ### Claim C1 -/

/-- C1 counterexample: as stated the claim is false — when no participant row
exists for the (conversation, user) pair, `updateLastRead` does not succeed
silently: the PostgREST `.single()` step yields an error, which the function
throws.  Here: the empty database, conversation 1, user 2. -/
theorem updateLastRead_missing_row_errors :
    (updateLastRead emptyDb 1 2 3).2 =
      Except.error ("JSON object requested, multiple (or no) rows returned") := rfl

/-- C1 (amended): for every (conversationId, userId) pair, `markRead`
(implemented as `updateLastRead`) sets that participant row's `last_read_at`
to the current time and is idempotent (a second call leaves `last_read_at` at
the second call's time); but when no participant row exists for the pair, the
call is a no-op on the state and throws the `.single()` error instead of
succeeding silently. -/
theorem updateLastRead_spec (db : DB) (cid uid t : Nat) :
    ((∀ q ∈ db.participants, ¬(q.conversation_id = cid ∧ q.user_id = uid)) →
      (updateLastRead db cid uid t).1 = db ∧
      (updateLastRead db cid uid t).2 =
        Except.error ("JSON object requested, multiple (or no) rows returned")) ∧
    (∀ p : Participant, ParticipantKeysUnique db → p ∈ db.participants →
      p.conversation_id = cid → p.user_id = uid →
      (updateLastRead db cid uid t).2 = Except.ok { p with last_read_at := t } ∧
      ({ p with last_read_at := t } : Participant) ∈
        (updateLastRead db cid uid t).1.participants ∧
      (updateLastRead db cid uid t).1.conversations = db.conversations ∧
      (updateLastRead db cid uid t).1.messages = db.messages ∧
      ∀ t2 : Nat, (updateLastRead (updateLastRead db cid uid t).1 cid uid t2).2 =
        Except.ok { p with last_read_at := t2 }) := by
  constructor
  · intro hmiss
    rw [updateLastRead_miss t hmiss]
    exact ⟨rfl, rfl⟩
  · intro p hkeys hp hc hu
    have h := updateLastRead_hit t hkeys hp hc hu
    have hfp : ((fun q : Participant =>
        if q.conversation_id = cid ∧ q.user_id = uid then
          { q with last_read_at := t } else q) p) = { p with last_read_at := t } :=
      if_pos ⟨hc, hu⟩
    have hp1 : ({ p with last_read_at := t } : Participant) ∈
        (applyLastRead db cid uid t).participants := by
      show _ ∈ db.participants.map _
      exact hfp ▸ List.mem_map_of_mem _ hp
    refine ⟨by rw [h], by rw [h]; exact hp1, by rw [h]; rfl, by rw [h]; rfl, ?_⟩
    intro t2
    have hkeys1 : ParticipantKeysUnique (applyLastRead db cid uid t) := by
      unfold ParticipantKeysUnique
      rw [applyLastRead_keys]
      exact hkeys
    have h2 := updateLastRead_hit t2 hkeys1 hp1 hc hu
    rw [h]
    show (updateLastRead (applyLastRead db cid uid t) cid uid t2).2 = _
    rw [h2]

/-- C1 witness: concrete run of the amended claim on the example database:
user 10 is a participant of conversation 1; marking read at time 5 succeeds
and sets `last_read_at = 5`; marking read again at time 7 leaves it at 7. -/
theorem updateLastRead_spec_witness :
    ParticipantKeysUnique exDb ∧ exParticipantA ∈ exDb.participants ∧
    (updateLastRead exDb 1 10 5).2 =
      Except.ok { exParticipantA with last_read_at := 5 } ∧
    (updateLastRead (updateLastRead exDb 1 10 5).1 1 10 7).2 =
      Except.ok { exParticipantA with last_read_at := 7 } := by
  have h := (updateLastRead_spec exDb 1 10 5).2 exParticipantA
    (by unfold ParticipantKeysUnique; decide) (by decide) rfl rfl
  exact ⟨by unfold ParticipantKeysUnique; decide, by decide, h.1, h.2.2.2.2 7⟩

/-! ### Claim C8 -/

/-- C8: every insert, update or delete of a `conversation_participants` row
makes the fan-out trigger emit exactly one Delivery Event, addressed to the
channel of that row's own `user_id` (`COALESCE(NEW.user_id, OLD.user_id)`) and
to no other user's channel. -/
theorem broadcast_participant_single_event (ch : RowChange Participant) :
    (broadcast_conversation_participant_changes ch).length = 1 ∧
    ∀ e ∈ broadcast_conversation_participant_changes ch,
      e.topic = userTopic (participantChangeUser ch) ∧
      e.table_name = "conversation_participants" ∧
      e.operation = ch.op.name ∧
      e.record = ch.newRow.map RowData.participantRow ∧
      e.old_record = ch.oldRow.map RowData.participantRow ∧
      ∀ u : Nat, e.topic = userTopic u → u = participantChangeUser ch := by
  refine ⟨rfl, ?_⟩
  intro e he
  have : e = { topic := userTopic (participantChangeUser ch)
               event_name := ch.op.name
               operation := ch.op.name
               table_name := "conversation_participants"
               record := ch.newRow.map RowData.participantRow
               old_record := ch.oldRow.map RowData.participantRow } := by
    simpa [broadcast_conversation_participant_changes] using he
  subst this
  refine ⟨rfl, rfl, rfl, rfl, rfl, ?_⟩
  intro u hu
  exact (userTopic_inj hu).symm

/-- C8 witness: deleting the example participant row of user 10 emits exactly
the one event addressed to `user:10`. -/
theorem broadcast_participant_single_event_witness :
    (broadcast_conversation_participant_changes (RowChange.del exParticipantA)).length = 1 ∧
    exParticipantDeleteEvent ∈
      broadcast_conversation_participant_changes (RowChange.del exParticipantA) ∧
    exParticipantDeleteEvent.topic = userTopic 10 := by
  have h := broadcast_participant_single_event (RowChange.del exParticipantA)
  have hmem : exParticipantDeleteEvent ∈
      broadcast_conversation_participant_changes (RowChange.del exParticipantA) :=
    List.mem_singleton.mpr rfl
  exact ⟨h.1, hmem, (h.2 _ hmem).1⟩

/-! ### Claim C9 -/

/-- C9: in the visibility-change liveness check, `channel.subscribe()` is
invoked iff a (truthy) userId and a channel exist and the channel state is
`'closed'` or `'errored'`; in particular it is never invoked while the channel
is already subscribed (state `'joined'`), so the check cannot create a
duplicate subscription. -/
theorem handleVisibilityChange_resubscribe_iff :
    (∀ (userId : Option String) (channel : Option ChannelState),
      handleVisibilityChange ("visible") userId channel = true ↔
        (userIdFalsy userId = false ∧
         ∃ st, channel = some st ∧
           (st = ChannelState.closed ∨ st = ChannelState.errored))) ∧
    (∀ (v : String) (userId : Option String),
      handleVisibilityChange v userId (some ChannelState.joined) = false) := by
  constructor
  · intro userId channel
    cases channel with
    | none => simp [handleVisibilityChange]
    | some st =>
      rcases hf : userIdFalsy userId with _ | _
      · simp [handleVisibilityChange, hf]
      · simp [handleVisibilityChange, hf]
  · intro v userId
    unfold handleVisibilityChange
    by_cases hv : v = "visible"
    · subst hv
      rcases hf : userIdFalsy userId with _ | _ <;> simp [hf]
    · simp [hv]

/-- C9 witness: a visible page with a logged-in user and a closed channel does
resubscribe, and one with a joined channel does not. -/
theorem handleVisibilityChange_resubscribe_iff_witness :
    handleVisibilityChange ("visible") (some ("u1")) (some ChannelState.closed) = true ∧
    handleVisibilityChange ("visible") (some ("u1")) (some ChannelState.joined) = false :=
  ⟨(handleVisibilityChange_resubscribe_iff.1 (some ("u1")) (some ChannelState.closed)).mpr
     ⟨rfl, ChannelState.closed, rfl, Or.inl rfl⟩,
   handleVisibilityChange_resubscribe_iff.2 ("visible") (some ("u1"))⟩

/-! ### Claim C5 -/

/-- C5: `isParticipant` is true iff a participant row exists for the pair, and
is false — never an error — when the conversation does not exist (under the
schema's foreign key, a nonexistent conversation has no participant rows).
The client-side `isUserInConversation` agrees with the SQL function and
likewise returns without error under the schema's uniqueness constraint. -/
theorem is_conversation_participant_spec (db : DB) (cid uid : Nat) :
    (is_conversation_participant db cid uid = true ↔
      ∃ p ∈ db.participants, p.conversation_id = cid ∧ p.user_id = uid) ∧
    (ParticipantConversationFk db → (∀ c ∈ db.conversations, c.id ≠ cid) →
      is_conversation_participant db cid uid = false) ∧
    (ParticipantKeysUnique db →
      isUserInConversation db cid uid =
        Except.ok (is_conversation_participant db cid uid)) := by
  have hiff : is_conversation_participant db cid uid = true ↔
      ∃ p ∈ db.participants, p.conversation_id = cid ∧ p.user_id = uid := by
    simp [is_conversation_participant, List.any_eq_true]
  refine ⟨hiff, ?_, ?_⟩
  · intro hfk hno
    rcases h : is_conversation_participant db cid uid with _ | _
    · rfl
    · exfalso
      rcases hiff.mp h with ⟨p, hp, hc, -⟩
      rcases hfk p hp with ⟨c, hcmem, hcid⟩
      exact hno c hcmem (hcid.trans hc)
  · intro hkeys
    by_cases hex : ∃ p ∈ db.participants, p.conversation_id = cid ∧ p.user_id = uid
    · rcases hex with ⟨p, hp, hc, hu⟩
      have htrue : is_conversation_participant db cid uid = true :=
        hiff.mpr ⟨p, hp, hc, hu⟩
      unfold isUserInConversation
      rw [participant_filter_singleton hkeys hp hc hu, htrue]
    · have hfalse : is_conversation_participant db cid uid = false := by
        rcases h : is_conversation_participant db cid uid with _ | _
        · rfl
        · exact absurd (hiff.mp h) hex
      have hfilter : db.participants.filter
          (fun q => decide (q.conversation_id = cid ∧ q.user_id = uid)) = [] := by
        apply List.filter_eq_nil_iff.mpr
        intro q hq
        simp only [decide_eq_true_eq]
        intro hqc
        exact hex ⟨q, hq, hqc⟩
      unfold isUserInConversation
      rw [hfilter, hfalse]

/-- C5 witness: on the example database, conversation 2 does not exist and the
check returns false without error; for the existing pair (1, 10) the client
check agrees with the SQL function. -/
theorem is_conversation_participant_spec_witness :
    ParticipantConversationFk exDb ∧ ParticipantKeysUnique exDb ∧
    is_conversation_participant exDb 2 10 = false ∧
    isUserInConversation exDb 1 10 =
      Except.ok (is_conversation_participant exDb 1 10) := by
  refine ⟨?_, ?_, ?_, ?_⟩
  · unfold ParticipantConversationFk
    decide
  · unfold ParticipantKeysUnique
    decide
  · exact (is_conversation_participant_spec exDb 2 10).2.1
      (by unfold ParticipantConversationFk; decide) (by decide)
  · exact (is_conversation_participant_spec exDb 1 10).2.2
      (by unfold ParticipantKeysUnique; decide)

/-! ### Claim C10 -/

/-- C10: `getUnreadCount` returns 0 when no participant row exists for the
pair; otherwise it returns the number of messages of the conversation that are
not soft-deleted, were created strictly after the participant's
`last_read_at`, and whose sender is not the user — the user's own messages
never contribute. -/
theorem getUnreadCount_spec (db : DB) (cid uid : Nat) :
    ((∀ q ∈ db.participants, ¬(q.conversation_id = cid ∧ q.user_id = uid)) →
      getUnreadCount db cid uid = 0) ∧
    (∀ p : Participant, ParticipantKeysUnique db → p ∈ db.participants →
      p.conversation_id = cid → p.user_id = uid →
      getUnreadCount db cid uid =
        db.messages.countP fun m =>
          decide (m.conversation_id = cid ∧ m.deleted_at = none ∧
            p.last_read_at < m.created_at ∧ ¬ m.sender_id = uid)) := by
  constructor
  · intro hmiss
    have hfilter : db.participants.filter
        (fun q => decide (q.conversation_id = cid ∧ q.user_id = uid)) = [] := by
      apply List.filter_eq_nil_iff.mpr
      intro q hq
      simpa using hmiss q hq
    unfold getUnreadCount
    rw [hfilter]
  · intro p hkeys hp hc hu
    unfold getUnreadCount
    rw [participant_filter_singleton hkeys hp hc hu]
    dsimp only
    rw [List.countP_eq_length_filter]
    congr 1
    apply List.filter_congr
    intro m _
    simp only [decide_eq_true_eq, decide_eq_decide]
    tauto

/-- C10 witness: on the example database, user 11 has one unread message in
conversation 1 (the live message from user 10; the soft-deleted one does not
count), a missing pair yields 0, and user 10's own message does not count for
user 10. -/
theorem getUnreadCount_spec_witness :
    ParticipantKeysUnique exDb ∧
    getUnreadCount exDb 2 10 = 0 ∧
    getUnreadCount exDb 1 11 =
      exDb.messages.countP (fun m =>
        decide (m.conversation_id = 1 ∧ m.deleted_at = none ∧
          0 < m.created_at ∧ ¬ m.sender_id = 11)) ∧
    getUnreadCount exDb 1 11 = 1 ∧ getUnreadCount exDb 1 10 = 0 := by
  refine ⟨?_, ?_, ?_, by decide, by decide⟩
  · unfold ParticipantKeysUnique
    decide
  · exact (getUnreadCount_spec exDb 2 10).1 (by decide)
  · exact (getUnreadCount_spec exDb 1 11).2 exParticipantB
      (by unfold ParticipantKeysUnique; decide) (by decide) rfl rfl

/-! ### Claim C3 -/

/-- C3 counterexample: as stated the claim is false — `getById` has no
`deleted_at IS NULL` filter and returns the soft-deleted example message. -/
theorem getById_returns_soft_deleted :
    getById exDb 6 = Except.ok exDeletedMessage ∧
    exDeletedMessage.deleted_at = some 3 := ⟨rfl, rfl⟩

/-- C3 (amended): every list-returning read of the message interface
(`getByConversation`, `getRecentByConversation`, `getByConversationPaginated`,
`searchInConversation`, `getBySender`) excludes soft-deleted messages, and the
row itself is retained by `softDelete` so reply references stay resolvable;
but the single-row read `getById` does not filter on the soft-delete marker
and returns a message regardless of its `deleted_at`. -/
theorem message_reads_exclude_soft_deleted (db : DB) :
    (∀ cid : Nat, ∀ m ∈ getByConversation db cid, m.deleted_at = none) ∧
    (∀ cid limit : Nat, ∀ m ∈ getRecentByConversation db cid limit,
      m.deleted_at = none) ∧
    (∀ cid ts limit : Nat, ∀ m ∈ getByConversationPaginated db cid ts limit,
      m.deleted_at = none) ∧
    (∀ cid : Nat, ∀ term : String, ∀ m ∈ searchInConversation db cid term,
      m.deleted_at = none) ∧
    (∀ sid : Nat, ∀ m ∈ getBySender db sid, m.deleted_at = none) ∧
    (∀ mid : Nat, ∀ m : Message, MessageIdsUnique db → m ∈ db.messages →
      m.id = mid → getById db mid = Except.ok m) ∧
    (∀ mid t : Nat, (softDelete db mid t).1.messages.map Message.id =
      db.messages.map Message.id) := by
  refine ⟨?_, ?_, ?_, ?_, ?_, ?_, ?_⟩
  · intro cid m hm
    have hm' := (mem_sortRows _ m _).mp hm
    exact (of_decide_eq_true (List.mem_filter.mp hm').2).2
  · intro cid limit m hm
    have hm' := (mem_sortRows _ m _).mp (List.take_subset _ _ hm)
    exact (of_decide_eq_true (List.mem_filter.mp hm').2).2
  · intro cid ts limit m hm
    have hm' := (mem_sortRows _ m _).mp (List.take_subset _ _ hm)
    exact (of_decide_eq_true (List.mem_filter.mp hm').2).2.1
  · intro cid term m hm
    have hm' := (mem_sortRows _ m _).mp (List.take_subset _ _ hm)
    exact (of_decide_eq_true (List.mem_filter.mp hm').2).2.1
  · intro sid m hm
    have hm' := (mem_sortRows _ m _).mp hm
    exact (of_decide_eq_true (List.mem_filter.mp hm').2).2
  · intro mid m hids hm hid
    unfold getById
    rw [message_filter_singleton hids hm hid]
  · intro mid t
    rw [softDelete_fst]
    show (db.messages.map _).map Message.id = _
    rw [List.map_map]
    apply List.map_congr_left
    intro m _
    by_cases h : m.id = mid <;> simp [Function.comp, h]

/-- C3 witness: concrete run on the example database: the live message is
returned by `getByConversation` and is not soft-deleted, `getById` finds it,
and soft-deleting keeps the set of message ids unchanged. -/
theorem message_reads_exclude_soft_deleted_witness :
    MessageIdsUnique exDb ∧ exMessage ∈ getByConversation exDb 1 ∧
    exMessage.deleted_at = none ∧
    getById exDb 5 = Except.ok exMessage ∧
    (softDelete exDb 5 9).1.messages.map Message.id =
      exDb.messages.map Message.id := by
  have h := message_reads_exclude_soft_deleted exDb
  refine ⟨by unfold MessageIdsUnique; decide, by decide,
    h.1 1 exMessage (by decide),
    h.2.2.2.2.2.1 5 exMessage (by unfold MessageIdsUnique; decide) (by decide) rfl,
    h.2.2.2.2.2.2 5 9⟩

/-! ### Claim C4 -/

/-- C4 counterexample: as stated the claim is false — the list `[7, 7]` passes
every validation check (length 2, caller included), yet the call does not
return a new conversation id: the second participant insert violates
`UNIQUE(conversation_id, user_id)` and the whole function aborts. -/
theorem create_duplicate_ids_errors :
    create_conversation_with_participants emptyDb (some [7, 7]) 7 1 0 =
      Except.error ("duplicate key value violates unique constraint") := rfl

/-- C4 (amended): `create_conversation_with_participants` raises a descriptive
validation error — before any row is written — whenever the id list is null,
empty, shorter than 2, or does not include the caller; otherwise, provided the
ids are pairwise distinct (a duplicated id instead violates the participants
uniqueness constraint, aborting the call with no row written) and the
generated conversation id is fresh, it atomically inserts the conversation and
one participant row per id and returns the new conversation id. -/
theorem create_conversation_spec (db : DB) (auth newId now : Nat) :
    (create_conversation_with_participants db none auth newId now =
      Except.error ("participant_ids cannot be null or empty")) ∧
    (create_conversation_with_participants db (some []) auth newId now =
      Except.error ("participant_ids cannot be null or empty")) ∧
    (∀ ids : List Nat, ids.length = 1 →
      create_conversation_with_participants db (some ids) auth newId now =
        Except.error ("At least 2 participants are required")) ∧
    (∀ ids : List Nat, 2 ≤ ids.length → auth ∉ ids →
      create_conversation_with_participants db (some ids) auth newId now =
        Except.error ("You must be a participant in the conversation you are creating")) ∧
    (∀ ids : List Nat, 2 ≤ ids.length → auth ∈ ids → ids.Nodup →
      (∀ p ∈ db.participants, p.conversation_id ≠ newId) →
      create_conversation_with_participants db (some ids) auth newId now =
        Except.ok ({ conversations := db.conversations ++ [⟨newId, now, now⟩],
                     participants := db.participants ++
                       ids.map fun u => ⟨newId, u, now, now⟩,
                     messages := db.messages }, newId)) := by
  refine ⟨rfl, rfl, ?_, ?_, ?_⟩
  · intro ids h1
    unfold create_conversation_with_participants
    dsimp only
    rw [if_neg (by omega : ¬ ids.length = 0), if_pos (by omega : ids.length < 2)]
  · intro ids hlen hnotin
    unfold create_conversation_with_participants
    dsimp only
    rw [if_neg (by omega : ¬ ids.length = 0),
      if_neg (by omega : ¬ ids.length < 2), if_pos hnotin]
  · intro ids hlen hin hnodup hfresh
    unfold create_conversation_with_participants
    dsimp only
    rw [if_neg (by omega : ¬ ids.length = 0),
      if_neg (by omega : ¬ ids.length < 2), if_neg (not_not_intro hin),
      insertParticipantRows_ok db.participants newId ids now hnodup
        (fun p hp hpc => absurd hpc (hfresh p hp))]

/-- C4 witness: concrete run of the amended claim: singleton and
caller-missing lists fail with the documented errors, and a valid distinct
list is inserted atomically. -/
theorem create_conversation_spec_witness :
    create_conversation_with_participants exDb (some [10]) 10 2 4 =
      Except.error ("At least 2 participants are required") ∧
    create_conversation_with_participants exDb (some [11, 12]) 10 2 4 =
      Except.error ("You must be a participant in the conversation you are creating") ∧
    create_conversation_with_participants exDb (some [10, 12]) 10 2 4 =
      Except.ok ({ conversations := exDb.conversations ++ [⟨2, 4, 4⟩],
                   participants := exDb.participants ++
                     [⟨2, 10, 4, 4⟩, ⟨2, 12, 4, 4⟩],
                   messages := exDb.messages }, 2) := by
  have h := create_conversation_spec exDb 10 2 4
  exact ⟨h.2.2.1 [10] rfl, h.2.2.2.1 [11, 12] (by decide) (by decide),
    h.2.2.2.2 [10, 12] (by decide) (by decide) (by decide) (by decide)⟩

/-! ### Claim C2 -/

/-- C2: every message mutation makes the fan-out trigger emit exactly one
Delivery Event per user in the conversation's participant set as it stands at
mutation time — `|P|` events in total, each on that user's private channel and
carrying the mutated message's row images; users without a participant row at
mutation time receive none, and a sender who is a participant receives their
own event. -/
theorem broadcast_message_fanout (db : DB) (ch : RowChange Message)
    (hkeys : ParticipantKeysUnique db) :
    (broadcast_message_changes db ch).length =
      (participantsOf db (messageChangeConversation ch)).length ∧
    (∀ u ∈ participantsOf db (messageChangeConversation ch),
      (broadcast_message_changes db ch).countP
        (fun e => decide (e.topic = userTopic u)) = 1) ∧
    (∀ u : Nat, u ∉ participantsOf db (messageChangeConversation ch) →
      ∀ e ∈ broadcast_message_changes db ch, e.topic ≠ userTopic u) ∧
    (∀ e ∈ broadcast_message_changes db ch,
      e.table_name = "messages" ∧ e.operation = ch.op.name ∧
      e.record = ch.newRow.map RowData.messageRow ∧
      e.old_record = ch.oldRow.map RowData.messageRow) ∧
    (∀ m : Message, ch = RowChange.ins m →
      m.sender_id ∈ participantsOf db (messageChangeConversation ch) →
      ∃ e ∈ broadcast_message_changes db ch,
        e.topic = userTopic m.sender_id) := by
  refine ⟨?_, ?_, ?_, ?_, ?_⟩
  · show ((db.participants.filter _).map _).length = ((db.participants.filter _).map _).length
    rw [List.length_map, List.length_map]
  · intro u hu
    show ((db.participants.filter _).map _).countP _ = 1
    rw [List.countP_map]
    refine (List.countP_congr ?_).trans
      (countP_eq_one_of_nodup_map _ Participant.user_id u
        (participantsOf_nodup hkeys _) hu)
    intro q _
    simp only [Function.comp, decide_eq_true_eq]
    exact ⟨fun h => userTopic_inj h, fun h => by rw [h]⟩
  · intro u hnot e he
    rcases List.mem_map.mp he with ⟨q, hq, rfl⟩
    intro heq
    exact hnot (userTopic_inj heq ▸ List.mem_map_of_mem Participant.user_id hq)
  · intro e he
    rcases List.mem_map.mp he with ⟨q, -, rfl⟩
    exact ⟨rfl, rfl, rfl, rfl⟩
  · intro m hch hmem
    rcases List.mem_map.mp hmem with ⟨q, hq, hqu⟩
    exact ⟨_, List.mem_map_of_mem _ hq, by rw [hqu]⟩

/-- C2 witness: inserting the example message into conversation 1 (two
participant rows) emits as many events as there are participant rows, exactly
one of them addressed to `user:11`, and one addressed to the sender
(user 10). -/
theorem broadcast_message_fanout_witness :
    ParticipantKeysUnique exDb ∧
    (broadcast_message_changes exDb (RowChange.ins exMessage)).length =
      (participantsOf exDb 1).length ∧
    (broadcast_message_changes exDb (RowChange.ins exMessage)).countP
      (fun e => decide (e.topic = userTopic 11)) = 1 ∧
    (broadcast_message_changes exDb (RowChange.ins exMessage)).countP
      (fun e => decide (e.topic = userTopic 10)) = 1 ∧
    exMessageInsertEventB ∈ broadcast_message_changes exDb (RowChange.ins exMessage) := by
  have h := broadcast_message_fanout exDb (RowChange.ins exMessage)
    (by unfold ParticipantKeysUnique; decide)
  have hmem : exMessageInsertEventB ∈
      broadcast_message_changes exDb (RowChange.ins exMessage) := by
    have hlist : broadcast_message_changes exDb (RowChange.ins exMessage) =
        [{ topic := userTopic 10, event_name := "INSERT", operation := "INSERT",
           table_name := "messages", record := some (RowData.messageRow exMessage),
           old_record := none }, exMessageInsertEventB] := rfl
    rw [hlist]
    exact List.mem_cons_of_mem _ (List.mem_singleton.mpr rfl)
  exact ⟨by unfold ParticipantKeysUnique; decide, h.1,
    h.2.1 11 (by decide), h.2.1 10 (by decide), hmem⟩

/-! ### Claim C6 -/

/-- C6: `delete_conversation_and_notify` raises (leaving the state unchanged —
the raised exception aborts the transaction) when the caller is not a current
participant; for a participant caller it deletes every participant row of the
conversation, each deletion firing its own single fan-out event addressed to
that row's user, and all of them strictly before the conversation row itself
is deleted. -/
theorem delete_conversation_spec (db : DB) (cid uid : Nat) :
    (is_conversation_participant db cid uid = false →
      delete_conversation_and_notify db cid uid =
        Except.error ("You must be a participant to delete this conversation")) ∧
    (is_conversation_participant db cid uid = true →
      ∃ db' t1 t2,
        delete_conversation_and_notify db cid uid = Except.ok (db', t1 ++ t2) ∧
        (∀ p ∈ db.participants, p.conversation_id = cid →
          TraceAction.participantRowDeleted p
            (broadcast_conversation_participant_changes (RowChange.del p)) ∈ t1) ∧
        (∀ a ∈ t1, ∃ p evs, a = TraceAction.participantRowDeleted p evs ∧
          p ∈ db.participants ∧ p.conversation_id = cid ∧
          ∃ e, evs = [e] ∧ e.topic = userTopic p.user_id) ∧
        (∀ a ∈ t2, ∀ p evs, a ≠ TraceAction.participantRowDeleted p evs) ∧
        (∀ c ∈ db.conversations, c.id = cid →
          TraceAction.conversationRowDeleted c ∈ t2) ∧
        (∀ p ∈ db'.participants, ¬ p.conversation_id = cid) ∧
        (∀ c ∈ db'.conversations, ¬ c.id = cid)) := by
  constructor
  · intro h
    have h' : db.participants.any
        (fun p => decide (p.conversation_id = cid ∧ p.user_id = uid)) = false := h
    unfold delete_conversation_and_notify
    rw [if_pos (by rw [h']; decide)]
  · intro h
    have h' : db.participants.any
        (fun p => decide (p.conversation_id = cid ∧ p.user_id = uid)) = true := h
    unfold delete_conversation_and_notify
    rw [if_neg (by rw [h']; decide)]
    dsimp only
    refine ⟨_, _, _, rfl, ?_, ?_, ?_, ?_, ?_, ?_⟩
    · intro p hp hpc
      exact List.mem_map_of_mem _ (List.mem_filter.mpr ⟨hp, by simp [hpc]⟩)
    · intro a ha
      rcases List.mem_map.mp ha with ⟨p, hp, rfl⟩
      rcases List.mem_filter.mp hp with ⟨hpmem, hpc⟩
      exact ⟨p, _, rfl, hpmem, of_decide_eq_true hpc, _, rfl, rfl⟩
    · intro a ha p evs
      rcases List.mem_append.mp ha with hmem | hmem <;>
        rcases List.mem_map.mp hmem with ⟨x, -, rfl⟩ <;>
        exact fun heq => TraceAction.noConfusion heq
    · intro c hcmem hcid
      apply List.mem_append_right
      exact List.mem_map_of_mem _ (List.mem_filter.mpr ⟨hcmem, by simp [hcid]⟩)
    · intro p hp
      exact of_decide_eq_true (List.mem_filter.mp hp).2
    · intro c hc
      exact of_decide_eq_true (List.mem_filter.mp hc).2

/-- C6 witness: user 10 deletes conversation 1 of the example database; the
whole database is emptied, the trace deletes both participant rows (user 10's
event included) before the conversation row, and a non-participant caller
(user 99) is rejected. -/
theorem delete_conversation_spec_witness :
    is_conversation_participant exDb 1 10 = true ∧
    delete_conversation_and_notify exDb 1 10 = Except.ok (emptyDb, exDeleteTrace) ∧
    TraceAction.participantRowDeleted exParticipantA
      (broadcast_conversation_participant_changes (RowChange.del exParticipantA)) ∈
      exDeleteTrace ∧
    is_conversation_participant exDb 1 99 = false ∧
    delete_conversation_and_notify exDb 1 99 =
      Except.error ("You must be a participant to delete this conversation") := by
  have hok : delete_conversation_and_notify exDb 1 10 =
      Except.ok (emptyDb, exDeleteTrace) := by rfl
  have h := (delete_conversation_spec exDb 1 10).2 (by decide)
  rcases h with ⟨db', t1, t2, heq, hall, -, -, -, -, -⟩
  have hsplit : t1 ++ t2 = exDeleteTrace := by
    have h3 := heq.symm.trans hok
    simp only [Except.ok.injEq, Prod.mk.injEq] at h3
    exact h3.2
  refine ⟨by decide, hok, ?_, by decide,
    (delete_conversation_spec exDb 1 99).1 (by decide)⟩
  exact hsplit ▸ List.mem_append_left t2 (hall exParticipantA (by decide) rfl)

/-! ### Claim C7 -/

/-- C7: the derived unread status equals
`conversation.last_activity_at > participant.last_read_at`; it is false
immediately after `markRead` (performed at a time not before the
conversation's last activity), and inserting a new message into the
conversation (at a later time, via the trigger that advances the activity
timestamp) makes it true again. -/
theorem hasUnread_law (db : DB) (cid uid t t2 : Nat) (p : Participant)
    (c : Conversation) (m : Message)
    (hkeys : ParticipantKeysUnique db)
    (hp : p ∈ db.participants) (hpc : p.conversation_id = cid)
    (hpu : p.user_id = uid)
    (hc : findConversation db cid = some c)
    (hmono : c.updated_at ≤ t) (ht2 : t < t2) (hm : m.conversation_id = cid) :
    hasUnread c (participantRowsOf db cid) (some uid) =
      decide (c.updated_at > p.last_read_at) ∧
    hasUnread c (participantRowsOf (updateLastRead db cid uid t).1 cid)
      (some uid) = false ∧
    findConversation (insertMessage (updateLastRead db cid uid t).1 m t2).1 cid =
      some { c with updated_at := t2 } ∧
    hasUnread { c with updated_at := t2 }
      (participantRowsOf (insertMessage (updateLastRead db cid uid t).1 m t2).1 cid)
      (some uid) = true := by
  have hfrw := updateLastRead_fst db cid uid t
  have hcid : c.id = cid := by
    have h0 : db.conversations.find? (fun cc => decide (cc.id = cid)) = some c := hc
    have h1 := List.find?_some h0
    simpa using h1
  have hpred : ((fun q : Participant =>
      decide ((some uid : Option Nat) = some q.user_id)) ∘ fun q =>
        if q.conversation_id = cid ∧ q.user_id = uid then
          { q with last_read_at := t } else q) =
      fun q : Participant => decide ((some uid : Option Nat) = some q.user_id) := by
    funext q
    by_cases hq : q.conversation_id = cid ∧ q.user_id = uid <;>
      simp [Function.comp, hq]
  refine ⟨?_, ?_, ?_, ?_⟩
  · unfold hasUnread
    rw [find_user_row hkeys hp hpc hpu]
  · unfold hasUnread
    rw [hfrw, lastRead_map_rowsOf, List.find?_map, hpred,
      find_user_row hkeys hp hpc hpu, Option.map_some']
    rw [if_pos ⟨hpc, hpu⟩]
    exact decide_eq_false (Nat.not_lt.mpr hmono)
  · show (update_conversation_timestamp
        (updateLastRead db cid uid t).1.conversations m t2).find? _ = _
    rw [hfrw]
    show (db.conversations.map fun cc =>
        if cc.id = m.conversation_id then
          { cc with updated_at := t2 } else cc).find?
      (fun cc => decide (cc.id = cid)) = _
    rw [List.find?_map]
    have hpredc : ((fun cc : Conversation => decide (cc.id = cid)) ∘ fun cc =>
        if cc.id = m.conversation_id then { cc with updated_at := t2 } else cc) =
        fun cc : Conversation => decide (cc.id = cid) := by
      funext cc
      by_cases hcc : cc.id = m.conversation_id <;> simp [Function.comp, hcc]
    rw [hpredc]
    rw [show db.conversations.find? (fun cc => decide (cc.id = cid)) = some c from hc,
      Option.map_some', if_pos (hcid.trans hm.symm)]
  · unfold hasUnread
    rw [show participantRowsOf
          (insertMessage (updateLastRead db cid uid t).1 m t2).1 cid =
        participantRowsOf (updateLastRead db cid uid t).1 cid from rfl]
    rw [hfrw, lastRead_map_rowsOf, List.find?_map, hpred,
      find_user_row hkeys hp hpc hpu, Option.map_some']
    rw [if_pos ⟨hpc, hpu⟩]
    exact decide_eq_true ht2

/-- C7 witness: concrete run on the example database: after user 10 marks
conversation 1 read at time 3 the unread flag is false; inserting a message
from user 11 at time 5 advances the activity timestamp and flips it back to
true. -/
theorem hasUnread_law_witness :
    ParticipantKeysUnique exDb ∧ exParticipantA ∈ exDb.participants ∧
    findConversation exDb 1 = some exConversation ∧
    hasUnread exConversation
      (participantRowsOf (updateLastRead exDb 1 10 3).1 1) (some 10) = false ∧
    hasUnread { exConversation with updated_at := 5 }
      (participantRowsOf (insertMessage (updateLastRead exDb 1 10 3).1
        ⟨7, 1, 11, "yo", 5, 5, none, none, false⟩ 5).1 1) (some 10) = true := by
  have h := hasUnread_law exDb 1 10 3 5 exParticipantA exConversation
    ⟨7, 1, 11, "yo", 5, 5, none, none, false⟩
    (by unfold ParticipantKeysUnique; decide) (by decide) rfl rfl rfl
    (by decide) (by decide) rfl
  exact ⟨by unfold ParticipantKeysUnique; decide, by decide, rfl, h.2.1, h.2.2.2⟩

end ChatApp
